import Mathlib

/-!
Verification of the document-engine core of the f5xcctl CLI: the dynamic
document model (Go `interface{}` values decoded from JSON/YAML), the dot-path
query evaluator (`evaluateSimpleJSONPath` in internal/cmd/wait.go and
`getFieldValue` in internal/cmd/verbs.go), the JSON merge-patch engine
(`deepMerge`), the RFC-6902-style pointer patch engine (`jsonPatchAdd`,
`jsonPatchRemove`, `jsonPatchReplace`, `setPath`, `removePath`,
`parseArrayIndex`, and the operation loop of `applyJSONPatch`), and the
selector helpers (`extractLabelsMap`, `matchesFieldCondition`).

Go's `map[string]interface{}` documents are embedded as association lists with
first-match lookup; Go maps have unique keys, so first-match and last-match
lookup agree on all documents that arise from decoding. JSON numbers (Go
`float64`) are embedded as integers: no verified property depends on
non-integral numerics. A decoded JSON `null` and the absent-key Go `nil`
interface are both embedded as `GoVal.null`, exactly as the Go code conflates
them through `interface{}`.
-/

namespace F5xc

/-- A Go `interface{}` value as produced by decoding JSON/YAML:
`nil | bool | float64 | string | []interface{} | map[string]interface{}`. -/
inductive GoVal where
  | null
  | boolean (b : Bool)
  | num (n : Int)
  | str (s : String)
  | arr (elems : List GoVal)
  | obj (fields : List (String × GoVal))

/-- A Go `map[string]interface{}` document, embedded as an association list. -/
abbrev Doc := List (String × GoVal)

/-- Go map read `m[k]` returning presence: first matching binding. -/
def lookupKey : Doc → String → Option GoVal
  | [], _ => none
  | (k, v) :: rest, key => if k = key then some v else lookupKey rest key

/-- Go map read `m[k]` where a missing key yields the nil interface
(embedded as `GoVal.null`). -/
def lookupOrNull (m : Doc) (key : String) : GoVal :=
  match lookupKey m key with
  | some v => v
  | none => .null

/-- Go map write `m[k] = v`: replace the first binding of `k`, or append. -/
def setKey : Doc → String → GoVal → Doc
  | [], key, v => [(key, v)]
  | (k, w) :: rest, key, v =>
      if k = key then (k, v) :: rest else (k, w) :: setKey rest key v

/-- Go map `delete(m, k)`: remove every binding of `k`. -/
def eraseKey : Doc → String → Doc
  | [], _ => []
  | (k, v) :: rest, key =>
      if k = key then eraseKey rest key else (k, v) :: eraseKey rest key

/-- One dot-path walking loop shared verbatim by `evaluateSimpleJSONPath`
(wait.go) and `getFieldValue` (verbs.go): skip empty parts; descend into an
object by literal key (missing key yields the nil interface); any other
current value dead-ends to nil. -/
def walk : GoVal → List String → GoVal
  | cur, [] => cur
  | cur, part :: rest =>
      if part = "" then walk cur rest
      else
        match cur with
        | .obj m => walk (lookupOrNull m part) rest
        | _ => .null

/-- Split a character list at every occurrence of `sep`, keeping empty
pieces: the splitting loop of Go `strings.Split` for a one-character
separator (`Split("", sep)` is `[""]`, hence the empty list maps to one
empty piece). -/
def splitChars (sep : Char) : List Char → List (List Char)
  | [] => [[]]
  | ch :: rest =>
      if ch = sep then [] :: splitChars sep rest
      else
        match splitChars sep rest with
        | [] => [[ch]]
        | piece :: more => (ch :: piece) :: more

/-- Go `strings.Split(s, sep)` for a one-character separator. -/
def goSplit (s : String) (sep : Char) : List String :=
  (splitChars sep s.toList).map (fun cs => String.mk cs)

/-- Go `strings.TrimPrefix(path, ".")`: drop one leading dot when present. -/
def stripLeadingDot (path : String) : String :=
  match path.toList with
  | '.' :: rest => String.mk rest
  | _ => path

/-- The condition poller's evaluator (internal/cmd/wait.go): trim one leading
dot, split on `.`, then walk the document. Brackets receive no treatment:
a segment such as `items[*]` is looked up as a literal object key. -/
def evaluateSimpleJSONPath (data : Doc) (path : String) : GoVal :=
  walk (.obj data) (goSplit (stripLeadingDot path) '.')

/-- The field-selector resolver (internal/cmd/verbs.go): identical walking
loop, but without trimming a leading dot. -/
def getFieldValue (resource : Doc) (path : String) : GoVal :=
  walk (.obj resource) (goSplit path '.')

/-- Discriminator for the `value.(map[string]interface{})` type assertion. -/
def GoVal.isObjB : GoVal → Bool
  | .obj _ => true
  | _ => false

/-- Discriminator for the `value.([]interface{})` type assertion. -/
def GoVal.isArrB : GoVal → Bool
  | .arr _ => true
  | _ => false

/-- Discriminator for `value == nil` on a Go interface value. -/
def GoVal.isNullB : GoVal → Bool
  | .null => true
  | _ => false

/-! ### Rendering: Go `fmt.Sprintf("%v", value)` on a decoded interface value

Scalars print bare, the nil interface prints `<nil>`, slices print
space-separated inside `[...]`, maps print `key:value` pairs inside
`map[...]`. (Go's fmt prints map keys in sorted order; we render fields in
binding order, which coincides on the at-most-one-field maps and scalars the
verified properties render.) -/

mutual

def goRender : GoVal → String
  | .null => "<nil>"
  | .boolean b => if b then "true" else "false"
  | .num n => toString n
  | .str s => s
  | .arr elems => "[" ++ goRenderElems elems ++ "]"
  | .obj fields => "map[" ++ goRenderFields fields ++ "]"

def goRenderElems : List GoVal → String
  | [] => ""
  | [e] => goRender e
  | e :: rest => goRender e ++ " " ++ goRenderElems rest

def goRenderFields : List (String × GoVal) → String
  | [] => ""
  | [(k, v)] => k ++ ":" ++ goRender v
  | (k, v) :: rest => k ++ ":" ++ goRender v ++ " " ++ goRenderFields rest

end

/-! ### Pointer patch engine (internal/cmd, patch command source) -/

/-- One constructor per `fmt.Errorf` site of the pointer patch engine. -/
inductive PatchError where
  /-- The guards `cannot add to root path` / `cannot remove root path` /
  `cannot replace root path` in `jsonPatchAdd` / `jsonPatchRemove` /
  `jsonPatchReplace`; the operation name records which site fired. -/
  | cannotTargetRoot (op : String)
  /-- The message `array append (-) only valid for arrays, not objects`. -/
  | arrayAppendOnObject
  /-- The message `path %q does not exist`. -/
  | pathDoesNotExist (key : String)
  /-- The message `array index out of bounds: %s`. -/
  | arrayIndexOutOfBounds (segment : String)
  /-- The message `cannot navigate through non-object array element`. -/
  | cannotNavigateNonObjectElement
  /-- The message `path %q does not exist or is not an object`. -/
  | pathDoesNotExistOrNotObject (key : String)
  /-- The message `JSON patch operation %q not yet implemented`. -/
  | unsupportedOperation (op : String)
  /-- The message `unknown JSON patch operation: %s`. -/
  | unknownOperation (op : String)
  /-- The wrapper `failed to apply operation %s: %w` in the operation loop. -/
  | opFailed (op : String) (e : PatchError)
deriving DecidableEq

/-- Leading decimal digits of a character list. -/
def takeLeadingDigits (cs : List Char) : List Char :=
  cs.takeWhile (fun c => c.isDigit)

/-- Numeric value of a digit list. -/
def digitsVal (ds : List Char) : Nat :=
  ds.foldl (fun acc c => acc * 10 + (c.toNat - 48)) 0

/-- Model of `fmt.Sscanf(segment, "%d", &idx)`: skip leading blanks, accept an
optional sign followed by at least one digit, and ignore whatever trails the
digits (`Sscanf` leaves unconsumed input unread); `none` when no integer can
be scanned. -/
def scanInt (s : String) : Option Int :=
  let cs := s.toList.dropWhile (fun c => c = ' ' || c = '\t')
  match cs with
  | '-' :: rest =>
      match takeLeadingDigits rest with
      | [] => none
      | ds => some (-(digitsVal ds : Int))
  | '+' :: rest =>
      match takeLeadingDigits rest with
      | [] => none
      | ds => some ((digitsVal ds : Int))
  | _ =>
      match takeLeadingDigits cs with
      | [] => none
      | ds => some ((digitsVal ds : Int))

/-- Go `parseArrayIndex`: `-` maps to the array length (the append position),
any other segment is scanned with `Sscanf "%d"`, and a segment with no
leading integer yields `-1`. -/
def parseArrayIndex (segment : String) (arrLen : Nat) : Int :=
  if segment = "-" then (arrLen : Int)
  else
    match scanInt segment with
    | some idx => idx
    | none => -1

/-- Go `setPath`: copy-on-write descent that writes `value` at the pointer
tokens `parts`; `allowAdd` is true for `add` and false for `replace`. -/
def setPath : Doc → List String → GoVal → Bool → Except PatchError Doc
  | doc, [], _, _ => .ok doc
  | doc, [key], value, allowAdd =>
      if key = "-" then .error .arrayAppendOnObject
      else if !allowAdd && (lookupKey doc key).isNone then
        .error (.pathDoesNotExist key)
      else .ok (setKey doc key value)
  | doc, key :: part1 :: rest2, value, allowAdd =>
      match lookupKey doc key with
      | some (.obj next) =>
          (setPath next (part1 :: rest2) value allowAdd).map
            (fun updated => setKey doc key (.obj updated))
      | some (.arr arr) =>
          let idx := parseArrayIndex part1 arr.length
          if idx < 0 || (arr.length : Int) ≤ idx then
            .error (.arrayIndexOutOfBounds part1)
          else
            match arr.getD idx.toNat .null with
            | .obj nestedMap =>
                (setPath nestedMap rest2 value allowAdd).map
                  (fun updated => setKey doc key (.arr (arr.set idx.toNat (.obj updated))))
            | _ =>
                if rest2 = [] then
                  .ok (setKey doc key (.arr (arr.set idx.toNat value)))
                else .error .cannotNavigateNonObjectElement
      | _ =>
          if allowAdd then
            (setPath ([] : Doc) (part1 :: rest2) value allowAdd).map
              (fun updated => setKey doc key (.obj updated))
          else .error (.pathDoesNotExist key)

/-- Go `removePath`: copy-on-write descent that deletes the binding or array
element addressed by the pointer tokens `parts`. -/
def removePath : Doc → List String → Except PatchError Doc
  | doc, [] => .ok doc
  | doc, [key] =>
      if (lookupKey doc key).isNone then .error (.pathDoesNotExist key)
      else .ok (eraseKey doc key)
  | doc, key :: part1 :: rest2 =>
      match lookupKey doc key with
      | some (.obj next) =>
          (removePath next (part1 :: rest2)).map
            (fun updated => setKey doc key (.obj updated))
      | some (.arr arr) =>
          let idx := parseArrayIndex part1 arr.length
          if idx < 0 || (arr.length : Int) ≤ idx then
            .error (.arrayIndexOutOfBounds part1)
          else if rest2 = [] then
            .ok (setKey doc key (.arr (arr.take idx.toNat ++ arr.drop (idx.toNat + 1))))
          else
            match arr.getD idx.toNat .null with
            | .obj nestedMap =>
                (removePath nestedMap rest2).map
                  (fun updated => setKey doc key (.arr (arr.set idx.toNat (.obj updated))))
            | _ => .error .cannotNavigateNonObjectElement
      | _ => .error (.pathDoesNotExistOrNotObject key)

/-- Go `strings.TrimPrefix(path, "/")`: drop one leading slash when present. -/
def stripLeadingSlash (path : String) : String :=
  match path.toList with
  | '/' :: rest => String.mk rest
  | _ => path

/-- Go `jsonPatchAdd`: reject the root pointer, split the trimmed pointer on
`/`, then `setPath` with `allowAdd = true`. -/
def jsonPatchAdd (doc : Doc) (path : String) (value : GoVal) : Except PatchError Doc :=
  if path = "" || path = "/" then .error (.cannotTargetRoot "add")
  else setPath doc (goSplit (stripLeadingSlash path) '/') value true

/-- Go `jsonPatchRemove`: reject the root pointer, then `removePath`. -/
def jsonPatchRemove (doc : Doc) (path : String) : Except PatchError Doc :=
  if path = "" || path = "/" then .error (.cannotTargetRoot "remove")
  else removePath doc (goSplit (stripLeadingSlash path) '/')

/-- Go `jsonPatchReplace`: reject the root pointer, then `setPath` with
`allowAdd = false`. -/
def jsonPatchReplace (doc : Doc) (path : String) (value : GoVal) : Except PatchError Doc :=
  if path = "" || path = "/" then .error (.cannotTargetRoot "replace")
  else setPath doc (goSplit (stripLeadingSlash path) '/') value false

/-- One decoded JSON patch operation: the loop of `applyJSONPatch` reads the
fields `op` and `path` as strings and `value` as an interface value (absent
fields decode to `""` and the nil interface respectively). -/
structure PatchOp where
  op : String
  path : String
  value : GoVal

/-- The switch body of the `applyJSONPatch` loop for one operation:
`add`/`remove`/`replace` dispatch to the pointer engine with their error
wrapped as `failed to apply operation %s`, `copy`/`move`/`test` are rejected
as not yet implemented, and anything else is unknown. -/
def applyOneOp (doc : Doc) (o : PatchOp) : Except PatchError Doc :=
  match o.op with
  | "add" => (jsonPatchAdd doc o.path o.value).mapError (.opFailed "add")
  | "remove" => (jsonPatchRemove doc o.path).mapError (.opFailed "remove")
  | "replace" => (jsonPatchReplace doc o.path o.value).mapError (.opFailed "replace")
  | "copy" => .error (.unsupportedOperation "copy")
  | "move" => .error (.unsupportedOperation "move")
  | "test" => .error (.unsupportedOperation "test")
  | other => .error (.unknownOperation other)

/-- The operation loop of `applyJSONPatch`: thread the document through the
operations in order, returning the first error (after which the surrounding
command reports the failure and nothing is sent to the remote service). -/
def applyOps : Doc → List PatchOp → Except PatchError Doc
  | doc, [] => .ok doc
  | doc, o :: rest =>
      match applyOneOp doc o with
      | .ok next => applyOps next rest
      | .error e => .error e

/-! ### Merge patch engine (`deepMerge`) -/

mutual

/-- The body of `deepMerge`'s per-binding loop iteration for the source
binding `k := v`: a nil value deletes the key, a map value merges
recursively when the destination also holds a map there and otherwise
replaces, and any other value replaces wholesale. -/
def deepMergeStep (dst : Doc) (k : String) : GoVal → Doc
  | .null => eraseKey dst k
  | .obj srcM =>
      match lookupKey dst k with
      | some (.obj dstM) => setKey dst k (.obj (deepMerge dstM srcM))
      | _ => setKey dst k (.obj srcM)
  | v => setKey dst k v

/-- Go `deepMerge(dst, src)`: start from a copy of `dst` and fold the
bindings of `src` over it one at a time. -/
def deepMerge (dst : Doc) : Doc → Doc
  | [] => dst
  | (k, v) :: rest => deepMerge (deepMergeStep dst k v) rest

end

/-! ### Selector engine helpers (internal/cmd/verbs.go) -/

/-- First-match lookup in a Go `map[string]string`. -/
def lookupStr : List (String × String) → String → Option String
  | [], _ => none
  | (k, v) :: rest, key => if k = key then some v else lookupStr rest key

/-- Go map write `m[k] = v` on a `map[string]string`. -/
def setKeyStr : List (String × String) → String → String → List (String × String)
  | [], key, v => [(key, v)]
  | (k, w) :: rest, key, v =>
      if k = key then (k, v) :: rest else (k, w) :: setKeyStr rest key v

/-- The loop `for k, v := range labels { result[k] = fmt.Sprintf("%v", v) }`
run over `fields`, starting from the accumulated map `acc`. -/
def insertRendered : List (String × GoVal) → List (String × String) → List (String × String)
  | [], acc => acc
  | (k, v) :: rest, acc => insertRendered rest (setKeyStr acc k (goRender v))

/-- The first half of Go `extractLabelsMap`: the string map rendered from
`metadata.labels` when both `metadata` and its `labels` field are maps, and
empty otherwise. -/
def metadataLabelsPart (resource : Doc) : List (String × String) :=
  match lookupKey resource "metadata" with
  | some (.obj metadata) =>
      match lookupKey metadata "labels" with
      | some (.obj labels) => insertRendered labels []
      | _ => []
  | _ => []

/-- Go `extractLabelsMap`: render `metadata.labels` into a fresh string map
when it is a map, then render a top-level `labels` map over the same result
(later writes overwrite earlier ones). -/
def extractLabelsMap (resource : Doc) : List (String × String) :=
  match lookupKey resource "labels" with
  | some (.obj labels) => insertRendered labels (metadataLabelsPart resource)
  | _ => metadataLabelsPart resource

/-- A parsed field-selector clause (`fieldCondition` in verbs.go). -/
structure FieldCond where
  path : String
  operator : String
  value : String

/-- Go `matchesFieldCondition`: resolve the dot path with `getFieldValue`,
render it with `fmt.Sprintf("%v", value)`, then compare: `=` requires a
non-nil value whose rendering equals the literal, `!=` accepts a nil value or
a rendering differing from the literal, and any other operator accepts. -/
def matchesFieldCondition (resource : Doc) (cond : FieldCond) : Bool :=
  let value := getFieldValue resource cond.path
  let valueStr := goRender value
  match cond.operator with
  | "=" => !value.isNullB && (valueStr == cond.value)
  | "!=" => value.isNullB || (valueStr != cond.value)
  | _ => true

/-- Go `matchesFieldConditions`: every clause must accept. -/
def matchesFieldConditions (resource : Doc) (conds : List FieldCond) : Bool :=
  conds.all (matchesFieldCondition resource)

/-! ### Helper lemmas about the map primitives -/

theorem lookupKey_setKey_self (m : Doc) (k : String) (v : GoVal) :
    lookupKey (setKey m k v) k = some v := by
  induction m with
  | nil => simp [setKey, lookupKey]
  | cons kv rest ih =>
      by_cases h : kv.1 = k
      · simp [setKey, lookupKey, h]
      · simp [setKey, lookupKey, h, ih]

theorem lookupKey_setKey_ne (m : Doc) (k k' : String) (v : GoVal) (h : k' ≠ k) :
    lookupKey (setKey m k v) k' = lookupKey m k' := by
  induction m with
  | nil => simp [setKey, lookupKey, Ne.symm h]
  | cons kv rest ih =>
      by_cases hk : kv.1 = k
      · subst hk
        simp [setKey, lookupKey, Ne.symm h, h]
      · by_cases hk' : kv.1 = k'
        · simp [setKey, lookupKey, hk, hk', h]
        · simp [setKey, lookupKey, hk, hk', h, ih]

theorem setKey_setKey_self (m : Doc) (k : String) (a b : GoVal) :
    setKey (setKey m k a) k b = setKey m k b := by
  induction m with
  | nil => simp [setKey]
  | cons kv rest ih =>
      by_cases h : kv.1 = k
      · simp [setKey, h]
      · simp [setKey, h, ih]

theorem lookupKey_eraseKey_self (m : Doc) (k : String) :
    lookupKey (eraseKey m k) k = none := by
  induction m with
  | nil => simp [eraseKey, lookupKey]
  | cons kv rest ih =>
      by_cases h : kv.1 = k
      · simpa [eraseKey, lookupKey, h] using ih
      · simpa [eraseKey, lookupKey, h] using ih

theorem lookupKey_eraseKey_ne (m : Doc) (k k' : String) (h : k' ≠ k) :
    lookupKey (eraseKey m k) k' = lookupKey m k' := by
  induction m with
  | nil => simp [eraseKey, lookupKey]
  | cons kv rest ih =>
      by_cases hk : kv.1 = k
      · subst hk
        simp [eraseKey, lookupKey, Ne.symm h, ih]
      · by_cases hk' : kv.1 = k'
        · simp [eraseKey, lookupKey, hk, hk', h]
        · simp [eraseKey, lookupKey, hk, hk', ih]

theorem walk_null (ps : List String) : walk .null ps = .null := by
  induction ps with
  | nil => rfl
  | cons p rest ih =>
      by_cases h : p = ""
      · simpa [walk, h] using ih
      · simp [walk, h]

theorem lookupStr_setKeyStr_self (m : List (String × String)) (k v : String) :
    lookupStr (setKeyStr m k v) k = some v := by
  induction m with
  | nil => simp [setKeyStr, lookupStr]
  | cons kv rest ih =>
      by_cases h : kv.1 = k
      · simp [setKeyStr, lookupStr, h]
      · simp [setKeyStr, lookupStr, h, ih]

theorem lookupStr_setKeyStr_ne (m : List (String × String)) (k k' v : String) (h : k' ≠ k) :
    lookupStr (setKeyStr m k v) k' = lookupStr m k' := by
  induction m with
  | nil => simp [setKeyStr, lookupStr, Ne.symm h]
  | cons kv rest ih =>
      by_cases hk : kv.1 = k
      · subst hk
        simp [setKeyStr, lookupStr, Ne.symm h, h]
      · by_cases hk' : kv.1 = k'
        · simp [setKeyStr, lookupStr, hk, hk', h]
        · simp [setKeyStr, lookupStr, hk, hk', h, ih]

theorem lookupKey_eq_none_of_not_mem (ls : List (String × GoVal)) (k : String)
    (h : k ∉ ls.map Prod.fst) : lookupKey ls k = none := by
  induction ls with
  | nil => rfl
  | cons kv rest ih =>
      simp only [List.map_cons, List.mem_cons] at h
      push_neg at h
      simp [lookupKey, Ne.symm h.1, ih h.2]

/-- How a rendered label block folds into the accumulated map: a key bound in
the block (unique keys, as in a Go map) resolves to its rendered value, any
other key falls through to the accumulator. -/
theorem lookupStr_insertRendered (ls : List (String × GoVal))
    (acc : List (String × String)) (key : String)
    (hnd : (ls.map Prod.fst).Nodup) :
    lookupStr (insertRendered ls acc) key =
      match lookupKey ls key with
      | some v => some (goRender v)
      | none => lookupStr acc key := by
  induction ls generalizing acc with
  | nil => simp [insertRendered, lookupKey]
  | cons kv rest ih =>
      obtain ⟨k0, v0⟩ := kv
      simp only [List.map_cons, List.nodup_cons] at hnd
      by_cases hk : k0 = key
      · subst hk
        have hrest : lookupKey rest k0 = none :=
          lookupKey_eq_none_of_not_mem rest k0 hnd.1
        simp [insertRendered, lookupKey, ih _ hnd.2, hrest, lookupStr_setKeyStr_self]
      · simp [insertRendered, lookupKey, hk, ih _ hnd.2]
        cases hrest : lookupKey rest key with
        | some v => simp
        | none => simp [lookupStr_setKeyStr_ne _ _ _ _ (fun hx => hk hx.symm)]

/-! ### Claim C1 -/

/-- C1 counterexample: over `items = [{name:"a"},{},{name:"c"}]`, the
evaluator resolves `items[*].name` to `Null`, not to the fanned-out array
`["a","c"]`: the segment `items[*]` is looked up as a literal object key and
is absent. -/
theorem wildcard_fanout_counterexample :
    evaluateSimpleJSONPath
        [("items", .arr [.obj [("name", .str "a")], .obj [], .obj [("name", .str "c")]])]
        "items[*].name" = .null
    ∧ GoVal.null ≠ .arr [.str "a", .str "c"] :=
  ⟨rfl, fun h => nomatch h⟩

/-- C1 (amended): the dot-path evaluator has no wildcard support: a bracketed
segment such as `items[*]` is looked up as a literal object key, so whenever
the root lacks that literal key the whole path `items[*].name` resolves to
`Null`; no per-element fan-out, collection of non-`Null` results, or array
output ever happens. -/
theorem evaluateSimpleJSONPath_bracket_is_literal_key (root : Doc)
    (h : lookupKey root "items[*]" = none) :
    evaluateSimpleJSONPath root "items[*].name" = .null := by
  have h1 : evaluateSimpleJSONPath root "items[*].name"
      = walk (lookupOrNull root "items[*]") ["name"] := rfl
  have h2 : lookupOrNull root "items[*]" = .null := by
    unfold lookupOrNull
    rw [h]
  rw [h1, h2]
  rfl

/-- C1 witness: the amended statement applied to the spec's own example
document, whose top level holds only the key `items`. -/
theorem evaluateSimpleJSONPath_bracket_is_literal_key_witness :
    evaluateSimpleJSONPath
        [("items", .arr [.obj [("name", .str "a")], .obj [], .obj [("name", .str "c")]])]
        "items[*].name" = .null :=
  evaluateSimpleJSONPath_bracket_is_literal_key
    [("items", .arr [.obj [("name", .str "a")], .obj [], .obj [("name", .str "c")]])] rfl

/-! ### Claim C2 -/

/-- C2: the append marker is broken in the code. `parseArrayIndex` maps the
token `-` to the append position `len(arr)` (its own comment says so, and
the patch command's help text advertises `add` with a path ending in the
append token on `spec.domains`), but `setPath` bounds-checks
`idx >= len(arr)` and rejects it, so `add` at pointer `x` then `-` on
`x = [1,2]` fails with `array index out of bounds: -` instead of producing
`[1,2,3]`; `remove` at the same pointer fails through the same bounds
check, with the out-of-bounds error rather than a distinct
invalid-operation error. -/
theorem appendMarker_rejected_by_bounds_check :
    parseArrayIndex "-" 2 = 2
    ∧ jsonPatchAdd [("x", .arr [.num 1, .num 2])] "/x/-" (.num 3)
        = .error (.arrayIndexOutOfBounds "-")
    ∧ jsonPatchRemove [("x", .arr [.num 1, .num 2])] "/x/-"
        = .error (.arrayIndexOutOfBounds "-") :=
  ⟨rfl, rfl, rfl⟩

/-! ### Claim C3 -/

/-- C3 counterexample: on the empty document (where `/x` is absent), adding
at `/x/y` and then removing `/x/y` yields `{x: {}}`, which is not
structurally equal to the original empty document: the intermediate object
created by `add` survives the `remove`. -/
theorem add_remove_roundtrip_counterexample :
    (jsonPatchAdd [] "/x/y" (.str "v")).bind (fun d => jsonPatchRemove d "/x/y")
        = .ok [("x", .obj [])]
    ∧ (Except.ok [("x", GoVal.obj [])] : Except PatchError Doc) ≠ .ok [] :=
  ⟨rfl, fun h => nomatch h⟩

/-- C3 (amended): for a document whose top level lacks `x`, adding at `/x/y`
and then removing `/x/y` returns the original document with `x` additionally
bound to the empty object left behind by the intermediate that `add`
created — equal to the original on every key except `x`, but not
structurally equal to it. -/
theorem add_remove_roundtrip_leaves_empty_object (doc : Doc) (v : GoVal)
    (h : lookupKey doc "x" = none) :
    (jsonPatchAdd doc "/x/y" v).bind (fun d => jsonPatchRemove d "/x/y")
        = .ok (setKey doc "x" (.obj [])) := by
  have hset : setPath doc ["x", "y"] v true = .ok (setKey doc "x" (.obj [("y", v)])) := by
    simp only [setPath]
    rw [h]
    rfl
  have hrm : ∀ m : Doc, lookupKey m "x" = some (.obj [("y", v)]) →
      removePath m ["x", "y"] = .ok (setKey m "x" (.obj [])) := by
    intro m hm
    simp only [removePath]
    rw [hm]
    rfl
  have hadd : jsonPatchAdd doc "/x/y" v = setPath doc ["x", "y"] v true := rfl
  rw [hadd, hset]
  show removePath (setKey doc "x" (.obj [("y", v)])) ["x", "y"]
      = .ok (setKey doc "x" (.obj []))
  rw [hrm _ (lookupKey_setKey_self doc "x" (.obj [("y", v)])), setKey_setKey_self]

/-- C3 witness: the amended round trip evaluated on the one-key document
`{a: 1}`, producing `{a: 1, x: {}}`. -/
theorem add_remove_roundtrip_leaves_empty_object_witness :
    (jsonPatchAdd [("a", .num 1)] "/x/y" (.str "v")).bind
        (fun d => jsonPatchRemove d "/x/y")
      = .ok [("a", .num 1), ("x", .obj [])] :=
  add_remove_roundtrip_leaves_empty_object [("a", .num 1)] (.str "v") rfl

/-- A failed prefix aborts the whole operation list: once `applyOps` errors
on `ops1`, appending further operations cannot produce a document. -/
theorem applyOps_append_error (ops1 : List PatchOp) (doc : Doc)
    (ops2 : List PatchOp) (e : PatchError)
    (h : applyOps doc ops1 = .error e) :
    applyOps doc (ops1 ++ ops2) = .error e := by
  induction ops1 generalizing doc with
  | nil => simp [applyOps] at h
  | cons o rest ih =>
      simp only [applyOps, List.cons_append] at h ⊢
      cases hstep : applyOneOp doc o with
      | ok next =>
          rw [hstep] at h
          exact ih next h
      | error e0 =>
          rw [hstep] at h
          exact h

/-! ### Claim C4 -/

/-- C4: `replace` at pointer `/nonexistent` on a document whose top level
lacks that key fails with the path-does-not-exist error (wrapped by the
operation loop), and more generally a failing operation aborts the whole
multi-operation patch: once a prefix of the operation list errors, the full
list errors identically and no patched document is produced. -/
theorem replace_missing_fails_and_patch_aborts
    (doc : Doc) (v : GoVal) (ops1 ops2 : List PatchOp) (e : PatchError)
    (hmiss : lookupKey doc "nonexistent" = none)
    (hfail : applyOps doc ops1 = .error e) :
    applyOps doc [⟨"replace", "/nonexistent", v⟩]
        = .error (.opFailed "replace" (.pathDoesNotExist "nonexistent"))
    ∧ applyOps doc (ops1 ++ ops2) = .error e := by
  constructor
  · show (match (setPath doc ["nonexistent"] v false).mapError
        (PatchError.opFailed "replace") with
      | .ok next => applyOps next []
      | .error e => .error e)
      = .error (.opFailed "replace" (.pathDoesNotExist "nonexistent"))
    simp only [setPath]
    rw [hmiss]
    rfl
  · exact applyOps_append_error ops1 doc ops2 e hfail

/-- C4 witness: the theorem applied to the empty document, with the failing
prefix being the replace operation itself. -/
theorem replace_missing_fails_and_patch_aborts_witness :
    applyOps [] [⟨"replace", "/nonexistent", .null⟩]
        = .error (.opFailed "replace" (.pathDoesNotExist "nonexistent"))
    ∧ applyOps [] ([⟨"replace", "/nonexistent", .null⟩] ++ [⟨"add", "/a", .num 1⟩])
        = .error (.opFailed "replace" (.pathDoesNotExist "nonexistent")) :=
  replace_missing_fails_and_patch_aborts [] .null
    [⟨"replace", "/nonexistent", .null⟩] [⟨"add", "/a", .num 1⟩]
    (.opFailed "replace" (.pathDoesNotExist "nonexistent")) rfl rfl

/-! ### Claim C5 -/

/-- C5: the dot-path evaluator is total by construction (`walk` is a plain
structurally recursive function) and never signals an error: the empty path
and the path consisting of a single dot both return the root unchanged, and
both kinds of dead end during traversal — a key missing from the current
object, and a descent step on a value that is not an object — resolve the
whole path to `Null`. -/
theorem evaluateSimpleJSONPath_total_null_dead_ends
    (root m : Doc) (part : String) (rest : List String) (cur : GoVal)
    (hpart : part ≠ "") (hmiss : lookupKey m part = none)
    (hnotobj : cur.isObjB = false) :
    evaluateSimpleJSONPath root "" = .obj root
    ∧ evaluateSimpleJSONPath root "." = .obj root
    ∧ walk (.obj m) (part :: rest) = .null
    ∧ walk cur (part :: rest) = .null := by
  refine ⟨rfl, rfl, ?_, ?_⟩
  · have h2 : lookupOrNull m part = .null := by
      unfold lookupOrNull
      rw [hmiss]
    simp [walk, hpart, h2, walk_null]
  · cases cur
    case obj => simp [GoVal.isObjB] at hnotobj
    all_goals simp [walk, hpart]

/-- C5 witness: the dead-end cases evaluated at the empty object and the
nil value for the segment `status`. -/
theorem evaluateSimpleJSONPath_total_null_dead_ends_witness :
    evaluateSimpleJSONPath [] "" = .obj []
    ∧ evaluateSimpleJSONPath [] "." = .obj []
    ∧ walk (.obj []) ["status"] = .null
    ∧ walk .null ["status"] = .null :=
  evaluateSimpleJSONPath_total_null_dead_ends [] [] "status" [] .null
    (by decide) rfl rfl

/-! ### Claim C6 -/

/-- C6: merging any base object with the one-key patch `{k: Null}` deletes
`k` from the result and leaves every other key bound exactly as in the base;
`deepMerge` is a total function, so the merge never fails. -/
theorem deepMerge_null_tombstone (base : Doc) (k k' : String) (hne : k' ≠ k) :
    lookupKey (deepMerge base [(k, .null)]) k = none
    ∧ lookupKey (deepMerge base [(k, .null)]) k' = lookupKey base k' := by
  have hm : deepMerge base [(k, .null)] = eraseKey base k := rfl
  rw [hm]
  exact ⟨lookupKey_eraseKey_self base k, lookupKey_eraseKey_ne base k k' hne⟩

/-- C6 witness: deleting `k` from `{a: 1, k: 2}` keeps `a` and drops `k`. -/
theorem deepMerge_null_tombstone_witness :
    lookupKey (deepMerge [("a", .num 1), ("k", .num 2)] [("k", .null)]) "k" = none
    ∧ lookupKey (deepMerge [("a", .num 1), ("k", .num 2)] [("k", .null)]) "a"
        = lookupKey [("a", .num 1), ("k", .num 2)] "a" :=
  deepMerge_null_tombstone [("a", .num 1), ("k", .num 2)] "k" "a" (by decide)

/-! ### Claim C7 -/

/-- C7 counterexample: on a document carrying both `metadata.labels` with
`env = "prod"` and a top-level `labels` with `env = "dev"`, the extracted
label map binds `env` to `"dev"`: the top-level field is not a fallback used
only when `metadata.labels` is absent — it is always read, after (and over)
`metadata.labels`. -/
theorem extractLabelsMap_fallback_counterexample :
    lookupStr (extractLabelsMap
        [("metadata", .obj [("labels", .obj [("env", .str "prod")])]),
         ("labels", .obj [("env", .str "dev")])]) "env" = some "dev"
    ∧ (some "dev" : Option String) ≠ some "prod" :=
  ⟨rfl, by decide⟩

/-- C7 (amended): the label map the selector engine matches against merges
both sources: the rendered entries of `metadata.labels` are written first
and the rendered entries of a top-level `labels` field are always written
afterwards, so on any document carrying both maps (unique keys, as decoded
Go maps have) a key resolves to its top-level `labels` value when bound
there and to its `metadata.labels` value otherwise; the top-level field acts
as a fallback only in the sense that it is the later, overriding write. -/
theorem extractLabelsMap_top_level_overrides
    (resource metadata : Doc) (ls1 ls2 : List (String × GoVal)) (key : String)
    (hmd : lookupKey resource "metadata" = some (.obj metadata))
    (hls1 : lookupKey metadata "labels" = some (.obj ls1))
    (hls2 : lookupKey resource "labels" = some (.obj ls2))
    (hnd1 : (ls1.map Prod.fst).Nodup) (hnd2 : (ls2.map Prod.fst).Nodup) :
    lookupStr (extractLabelsMap resource) key =
      match lookupKey ls2 key with
      | some v => some (goRender v)
      | none =>
          match lookupKey ls1 key with
          | some v => some (goRender v)
          | none => none := by
  have hpart : metadataLabelsPart resource = insertRendered ls1 [] := by
    unfold metadataLabelsPart
    rw [hmd]
    show (match lookupKey metadata "labels" with
      | some (.obj labels) => insertRendered labels []
      | _ => []) = insertRendered ls1 []
    rw [hls1]
  have hmap : extractLabelsMap resource = insertRendered ls2 (insertRendered ls1 []) := by
    unfold extractLabelsMap
    rw [hls2]
    show insertRendered ls2 (metadataLabelsPart resource)
      = insertRendered ls2 (insertRendered ls1 [])
    rw [hpart]
  rw [hmap, lookupStr_insertRendered ls2 _ key hnd2]
  cases lookupKey ls2 key with
  | some v => rfl
  | none =>
      simp only []
      rw [lookupStr_insertRendered ls1 _ key hnd1]
      cases lookupKey ls1 key with
      | some v => rfl
      | none => rfl

/-- C7 witness: the amended statement applied to the counterexample
document, where the top-level binding wins. -/
theorem extractLabelsMap_top_level_overrides_witness :
    lookupStr (extractLabelsMap
        [("metadata", .obj [("labels", .obj [("env", .str "prod")])]),
         ("labels", .obj [("env", .str "dev")])]) "env" = some "dev" :=
  extractLabelsMap_top_level_overrides
    [("metadata", .obj [("labels", .obj [("env", .str "prod")])]),
     ("labels", .obj [("env", .str "dev")])]
    [("labels", .obj [("env", .str "prod")])]
    [("env", .str "prod")] [("env", .str "dev")] "env"
    rfl rfl rfl (by decide) (by decide)

/-! ### Claim C8 -/

/-- C8: the field-selector clause `metadata.namespace=default` accepts a
document exactly when the resolved `metadata.namespace` value renders (via
the `%v` formatting the code uses) to the string `default` — a nil resolved
value renders to a string that is never `default`, so the non-nil guard in
the code adds nothing — and a document lacking `metadata` entirely resolves
the path to nil, hence is rejected by `metadata.namespace=default` and
accepted by `metadata.namespace!=default`. -/
theorem fieldSelector_namespace_default (resource : Doc)
    (hnomd : lookupKey resource "metadata" = none) :
    (∀ r : Doc,
        matchesFieldCondition r ⟨"metadata.namespace", "=", "default"⟩ = true
          ↔ goRender (getFieldValue r "metadata.namespace") = "default")
    ∧ matchesFieldCondition resource ⟨"metadata.namespace", "=", "default"⟩ = false
    ∧ matchesFieldCondition resource ⟨"metadata.namespace", "!=", "default"⟩ = true := by
  have hval : ∀ r : Doc, lookupKey r "metadata" = none →
      getFieldValue r "metadata.namespace" = .null := by
    intro r hr
    have h1 : getFieldValue r "metadata.namespace"
        = walk (lookupOrNull r "metadata") ["namespace"] := rfl
    have h2 : lookupOrNull r "metadata" = .null := by
      unfold lookupOrNull
      rw [hr]
    rw [h1, h2]
    rfl
  refine ⟨?_, ?_, ?_⟩
  · intro r
    show (!(getFieldValue r "metadata.namespace").isNullB
        && (goRender (getFieldValue r "metadata.namespace") == "default")) = true
        ↔ goRender (getFieldValue r "metadata.namespace") = "default"
    constructor
    · intro h
      have := (Bool.and_eq_true _ _).mp h
      exact eq_of_beq this.2
    · intro h
      cases hv : getFieldValue r "metadata.namespace" with
      | null =>
          rw [hv] at h
          simp [goRender] at h
      | _ =>
          rw [hv] at h
          simp [GoVal.isNullB, h]
  · show (!(getFieldValue resource "metadata.namespace").isNullB
        && (goRender (getFieldValue resource "metadata.namespace") == "default")) = false
    rw [hval resource hnomd]
    rfl
  · show ((getFieldValue resource "metadata.namespace").isNullB
        || (goRender (getFieldValue resource "metadata.namespace") != "default")) = true
    rw [hval resource hnomd]
    rfl

/-- C8 witness: the clause evaluated on the empty document, which lacks
`metadata`, and the equivalence instantiated on a document whose namespace
is `default`. -/
theorem fieldSelector_namespace_default_witness :
    ((matchesFieldCondition [("metadata", .obj [("namespace", .str "default")])]
          ⟨"metadata.namespace", "=", "default"⟩ = true)
        ↔ goRender (getFieldValue [("metadata", .obj [("namespace", .str "default")])]
          "metadata.namespace") = "default")
    ∧ matchesFieldCondition [] ⟨"metadata.namespace", "=", "default"⟩ = false
    ∧ matchesFieldCondition [] ⟨"metadata.namespace", "!=", "default"⟩ = true :=
  ⟨(fieldSelector_namespace_default [] rfl).1
      [("metadata", .obj [("namespace", .str "default")])],
   (fieldSelector_namespace_default [] rfl).2.1,
   (fieldSelector_namespace_default [] rfl).2.2⟩

/-! ### Claim C9 -/

/-- C9: when an `add` descends through a non-terminal token whose current
value exists but is neither an object nor an array, `setPath` silently
replaces that value with a fresh empty object and continues the descent into
it: the result at `key` is whatever the remaining tokens build inside an
empty object, and the original scalar is gone from the result. -/
theorem setPath_add_overwrites_scalar_intermediate
    (doc : Doc) (key part1 : String) (rest2 : List String) (s v : GoVal)
    (hs : lookupKey doc key = some s)
    (hobj : s.isObjB = false) (harr : s.isArrB = false) :
    setPath doc (key :: part1 :: rest2) v true =
      (setPath ([] : Doc) (part1 :: rest2) v true).map
        (fun updated => setKey doc key (.obj updated)) := by
  simp only [setPath]
  rw [hs]
  cases s with
  | obj fields => simp [GoVal.isObjB] at hobj
  | arr elems => simp [GoVal.isArrB] at harr
  | null => rfl
  | boolean b => rfl
  | num n => rfl
  | str t => rfl

/-- C9 witness: adding at `a` then `b` over `{a: "hello"}` discards the
string and produces `{a: {b: 7}}`. -/
theorem setPath_add_overwrites_scalar_intermediate_witness :
    setPath [("a", .str "hello")] ["a", "b"] (.num 7) true
      = .ok [("a", .obj [("b", .num 7)])] := by
  rw [setPath_add_overwrites_scalar_intermediate [("a", .str "hello")] "a" "b" []
    (.str "hello") (.num 7) rfl rfl rfl]
  rfl

/-! ### Claim C10 -/

/-- C10: array-index tokens are parsed leniently. The scan keeps only the
leading integer and ignores the rest, so the token `2abc` addresses index 2
(shown both on `parseArrayIndex` and through a `setPath` write to index 2 on
a four-element array); a token with no leading integer at all scans to `-1`,
which `setPath` rejects through its bounds check with the
index-out-of-bounds error, not with an invalid-path error. -/
theorem parseArrayIndex_lenient_and_rejection
    (n : Nat) (seg : String) (doc : Doc) (key : String) (arr : List GoVal)
    (v : GoVal) (b : Bool)
    (hseg : seg ≠ "-") (hscan : scanInt seg = none)
    (harr : lookupKey doc key = some (.arr arr)) :
    parseArrayIndex "2abc" n = 2
    ∧ setPath [("x", .arr [.num 0, .num 1, .num 2, .num 3])] ["x", "2abc"] (.str "z") true
        = .ok [("x", .arr [.num 0, .num 1, .str "z", .num 3])]
    ∧ parseArrayIndex seg n = -1
    ∧ setPath doc [key, seg] v b = .error (.arrayIndexOutOfBounds seg) := by
  have hidx : parseArrayIndex seg arr.length = -1 := by
    unfold parseArrayIndex
    rw [if_neg hseg, hscan]
  refine ⟨rfl, rfl, ?_, ?_⟩
  · unfold parseArrayIndex
    rw [if_neg hseg, hscan]
  · simp only [setPath]
    rw [harr]
    show (if (decide (parseArrayIndex seg arr.length < 0)
          || decide ((arr.length : Int) ≤ parseArrayIndex seg arr.length)) = true
        then Except.error (PatchError.arrayIndexOutOfBounds seg)
        else _)
      = Except.error (PatchError.arrayIndexOutOfBounds seg)
    rw [hidx]
    simp

/-- C10 witness: the token `abc` has no leading integer, so the write into
`{x: [0]}` at tokens `x` then `abc` fails with the out-of-bounds error. -/
theorem parseArrayIndex_lenient_and_rejection_witness :
    parseArrayIndex "2abc" 7 = 2
    ∧ setPath [("x", .arr [.num 0, .num 1, .num 2, .num 3])] ["x", "2abc"] (.str "z") true
        = .ok [("x", .arr [.num 0, .num 1, .str "z", .num 3])]
    ∧ parseArrayIndex "abc" 7 = -1
    ∧ setPath [("x", .arr [.num 0])] ["x", "abc"] (.str "z") true
        = .error (.arrayIndexOutOfBounds "abc") :=
  parseArrayIndex_lenient_and_rejection 7 "abc" [("x", .arr [.num 0])] "x"
    [.num 0] (.str "z") true (by decide) rfl rfl

end F5xc
